import Mathlib

/-!
Verification development for the "Best Practices SDK" heuristic validation
engine: a shallow embedding of the code-quality, security and performance
scanners, the file discoverer, and the two score aggregators
(`BestPracticesSDK.validate` and the `runAudit` CLI), together with theorems
settling the specification claims about them.

Conventions of the embedding:
* JavaScript numbers are modelled as `ℚ` (all arithmetic here is exact);
  `Math.round` is `jsRound` (round half toward positive infinity),
  `Math.max`/`Math.min` are `max`/`min`.
* File contents are split into lines, each line a `List Char`.
* Regular-expression scans from the source are embedded as executable
  matching functions over `List Char`, one per source regex, built from a
  small parser-combinator kernel; ordered alternation with backtracking is
  used exactly where the source regex has an alternation or optional group.
* Fallible scanner runs are `Except String`; the `catch` branches of the
  validators are embedded explicitly.
-/
namespace CodeDirectives

/-- JavaScript `Math.round`: round half toward positive infinity. -/
def jsRound (q : ℚ) : ℤ := ⌊q + 1 / 2⌋

/-- Whitespace characters recognised by JavaScript `\s` / `String.trim`
(ASCII fragment, which is all the embedded sources use). -/
def isWsChar (c : Char) : Bool :=
  c = ' ' || c = '\t' || c = '\n' || c = '\r' || c = '\x0b' || c = '\x0c'

/-- JavaScript `\w` character class: `[A-Za-z0-9_]`. -/
def isWordChar (c : Char) : Bool := c.isAlpha || c.isDigit || c = '_'

/-- JavaScript `String.prototype.trim` on a line of characters. -/
def jsTrim (cs : List Char) : List Char :=
  ((cs.dropWhile isWsChar).reverse.dropWhile isWsChar).reverse

/-- `hay.includes(needle)` on character lists. -/
def hasSubstr (needle : List Char) : List Char → Bool
  | [] => needle.isEmpty
  | c :: rest => needle.isPrefixOf (c :: rest) || hasSubstr needle rest

/-- `hay.includes(needle)` on strings. -/
def hasSubstrStr (needle hay : String) : Bool := hasSubstr needle.data hay.data

/-- `s.endsWith(suf)` on character lists. -/
def endsWithCh (suf cs : List Char) : Bool := suf.reverse.isPrefixOf cs.reverse

/-- Split a character list at every occurrence of `sep` (the semantics of
JavaScript `split` with a one-character separator). -/
def splitOnChar (sep : Char) : List Char → List (List Char)
  | [] => [[]]
  | c :: rest =>
    let r := splitOnChar sep rest
    if c = sep then [] :: r
    else
      match r with
      | [] => [[c]]
      | h :: t => (c :: h) :: t

/-- `content.split('\n')`, each line as a character list. -/
def splitLines (content : List Char) : List (List Char) := splitOnChar '\n' content

/-- `lines.join('\n')`. -/
def joinLines (lines : List (List Char)) : List Char := List.intercalate ['\n'] lines

/-- Lowercase a line of characters (JavaScript `toLowerCase`, ASCII). -/
def lowerCh (cs : List Char) : List Char := cs.map Char.toLower

/-! ## Data model

One detected problem instance, as built by the scanners
(`file`, `line`, `type`, `severity`, `message`, `rule`, optional
`secretType`). -/
structure Issue where
  file : String
  line : Nat
  type : String
  severity : String
  message : String
  rule : String
  secretType : Option String := none
  deriving DecidableEq, Repr

/-- An applied-fix record: the issue spread together with a `fix` field. -/
structure FixEntry where
  issue : Issue
  fix : String
  deriving DecidableEq, Repr

/-- An element of a validator result's `issues` array.  The success paths
push structured issue objects; the `catch` branches push plain strings. -/
inductive IssueItem where
  | record (i : Issue)
  | plain (s : String)
  deriving DecidableEq, Repr

/-- The `severity` property of an issues-array element; `none` for the
plain strings pushed by the `catch` branches (reading `.severity` of a
string yields `undefined` in the source). -/
def IssueItem.severityOf : IssueItem → Option String
  | .record i => some i.severity
  | .plain _ => none

/-! ## Score formulas -/
/-- Metrics accumulated by `CodeValidator.validate` that feed the score. -/
structure CodeMetrics where
  totalFunctions : Nat
  commentedFunctions : Nat
  longFunctions : Nat
  deriving DecidableEq, Repr

/-- `CodeValidator._calculateScore`. -/
def codeCalculateScore (m : CodeMetrics) : ℤ :=
  if m.totalFunctions = 0 then 100
  else
    let commentRatio : ℚ := (m.commentedFunctions : ℚ) / (m.totalFunctions : ℚ)
    let longFunctionPenalty : ℚ := ((m.longFunctions : ℚ) / (m.totalFunctions : ℚ)) * 20
    let score : ℚ := commentRatio * 80 + 20 - longFunctionPenalty
    max 0 (min 100 (jsRound score))

/-- The code-quality score formula as the specification words it:
comment ratio (1 when no functions) times 80 plus 20 minus the
long-function penalty, clamped to [0, 100] and rounded to nearest. -/
def specCodeScore (m : CodeMetrics) : ℤ :=
  if m.totalFunctions = 0 then 100
  else
    let commentRatio : ℚ := (m.commentedFunctions : ℚ) / (m.totalFunctions : ℚ)
    let penalty : ℚ := ((m.longFunctions : ℚ) / (m.totalFunctions : ℚ)) * 20
    jsRound (max 0 (min 100 (commentRatio * 80 + 20 - penalty)))

/-- `SecurityValidator._calculateSecurityScore`. -/
def securityCalculateScore (secretsFound vulnerabilities : Nat) : ℤ :=
  max 0 (100 - 15 * (secretsFound : ℤ) - 10 * (vulnerabilities : ℤ))

/-- `PerformanceValidator._calculatePerformanceScore`.  `bundleLimit` is
`this.limits.bundleSize` (bytes).  In the source the overage branch divides
by the limit; with a zero limit JavaScript produces `Infinity` and
`Math.min(30, Infinity) = 30`, which the `bundleLimit = 0` case reproduces. -/
def perfCalculateScore (bundleSize bundleLimit largeFileCount unusedDepCount perfIssueCount : Nat) : ℤ :=
  let overageDeduction : ℚ :=
    if bundleSize ≤ bundleLimit then 0
    else if bundleLimit = 0 then 30
    else min 30 (((bundleSize : ℚ) / (bundleLimit : ℚ) - 1) * 20)
  let score : ℚ := 100 - overageDeduction
    - min 20 (5 * (largeFileCount : ℚ))
    - min 15 (2 * (unusedDepCount : ℚ))
    - min 25 (2 * (perfIssueCount : ℚ))
  max 0 (jsRound score)

/-! ## The two aggregators: `BestPracticesSDK.validate` and `runAudit` -/
/-- The three scoring standards. -/
inductive Standard where
  | code
  | security
  | performance
  deriving DecidableEq, Repr

/-- What one validator's `validate` call returns, as consumed by the
aggregators: a score, an issues array and a fixed array. -/
structure ScanOutput where
  score : ℚ
  issues : List IssueItem
  fixed : List FixEntry
  deriving DecidableEq, Repr

/-- The object `BestPracticesSDK.validate` returns.  `scores` keeps the
insertion order of the `results.scores` object (code, security,
performance). -/
structure SdkReport where
  passed : Bool
  issues : List IssueItem
  fixed : List FixEntry
  scores : List (Standard × ℚ)
  overallScore : ℚ
  deriving DecidableEq, Repr

/-- One requested-standard block inside `BestPracticesSDK.validate`:
record the score; if the validator reported any issues, clear `passed` and
append them; for the code standard also append the fixed entries. -/
def sdkStep (st : SdkReport) (s : Standard) (r : ScanOutput) (pushFixed : Bool) : SdkReport :=
  let st1 := { st with scores := st.scores ++ [(s, r.score)] }
  let st2 :=
    if !r.issues.isEmpty then
      { st1 with passed := false, issues := st1.issues ++ r.issues }
    else st1
  if pushFixed && !r.fixed.isEmpty then
    { st2 with fixed := st2.fixed ++ r.fixed }
  else st2

/-- `BestPracticesSDK.validate` (aggregation part): runs the requested
standards in the source's fixed order (code, security, performance), then
sets `overallScore` to the sum of the recorded scores divided by their
count — with no rounding. -/
def sdkValidate (standards : List Standard) (codeR secR perfR : ScanOutput) : SdkReport :=
  let st0 : SdkReport :=
    { passed := true, issues := [], fixed := [], scores := [], overallScore := 0 }
  let st1 := if Standard.code ∈ standards then sdkStep st0 .code codeR true else st0
  let st2 := if Standard.security ∈ standards then sdkStep st1 .security secR false else st1
  let st3 := if Standard.performance ∈ standards then sdkStep st2 .performance perfR false else st2
  let scoreValues := st3.scores.map Prod.snd
  { st3 with overallScore := scoreValues.sum / (scoreValues.length : ℚ) }

/-- The standards actually run, in the aggregators' fixed check order. -/
def includedStandards (standards : List Standard) : List Standard :=
  [Standard.code, Standard.security, Standard.performance].filter
    (fun s => decide (s ∈ standards))

/-- Select a standard's validator output. -/
def scanOutputFor (s : Standard) (cR sR pR : ScanOutput) : ScanOutput :=
  match s with
  | .code => cR
  | .security => sR
  | .performance => pR

/-- Number of issues whose `severity` property equals `sev` (plain string
entries have no `severity`). -/
def countSeverity (sev : String) (items : List IssueItem) : Nat :=
  (items.filter (fun i => decide (i.severityOf = some sev))).length

/-- The summary block computed by the `runAudit` CLI. -/
structure AuditSummary where
  overallScore : ℤ
  totalIssues : Nat
  criticalIssues : Nat
  warnings : Nat
  passed : Bool
  deriving DecidableEq, Repr

/-- `runAudit` (aggregation part): totals scores and issue counts over the
requested standards; `criticalIssues` counts issues with severity exactly
`error`; `overallScore = Math.round(totalScore / standards.length)`;
`passed = overallScore >= 80 && criticalIssues == 0`. -/
def runAuditSummary (standards : List Standard) (codeR secR perfR : ScanOutput) : AuditSummary :=
  let step := fun (acc : ℚ × Nat × Nat × Nat) (r : ScanOutput) =>
    (acc.1 + r.score, acc.2.1 + r.issues.length,
      acc.2.2.1 + countSeverity "error" r.issues,
      acc.2.2.2 + countSeverity "warning" r.issues)
  let acc0 : ℚ × Nat × Nat × Nat := (0, 0, 0, 0)
  let acc1 := if Standard.code ∈ standards then step acc0 codeR else acc0
  let acc2 := if Standard.security ∈ standards then step acc1 secR else acc1
  let acc3 := if Standard.performance ∈ standards then step acc2 perfR else acc2
  let overall := jsRound (acc3.1 / (standards.length : ℚ))
  { overallScore := overall
    totalIssues := acc3.2.1
    criticalIssues := acc3.2.2.1
    warnings := acc3.2.2.2
    passed := decide (80 ≤ overall) && decide (acc3.2.2.1 = 0) }

/-- The pass criterion as the specification words it: an issue counts as
blocking when its severity is `critical` or `error`. -/
def specCriticalSeverity (i : IssueItem) : Bool :=
  decide (i.severityOf = some "critical") || decide (i.severityOf = some "error")

/-! ## Concrete validator outputs used in the counterexamples.

`c1CodeScan` is reachable: a project with 40 commented functions one of
which exceeds the length limit scores `round(1*80 + 20 - 20/40) = 100`
while emitting one `long-function` warning issue.  `c2SecScan` is
reachable: one hardcoded secret gives score `100 - 15 = 85` with one
`high` issue. -/
def emptyScan : ScanOutput := { score := 0, issues := [], fixed := [] }

def longFunctionWarning : Issue :=
  { file := "src/a.js", line := 1, type := "long-function", severity := "warning",
    message := "Function \x27big\x27 has 60 lines (max: 50)", rule := "max-function-lines" }

def c1CodeScan : ScanOutput :=
  { score := ((codeCalculateScore ⟨40, 40, 1⟩ : ℤ) : ℚ),
    issues := [IssueItem.record longFunctionWarning], fixed := [] }

def c2SecretIssue : Issue :=
  { file := "src/s.js", line := 3, type := "hardcoded-secret", severity := "high",
    message := "AWS Access Key ID: AKIA1234567890123456...",
    rule := "no-hardcoded-secrets", secretType := some "AWS Access Key" }

def c2CodeScan : ScanOutput :=
  { score := ((codeCalculateScore ⟨0, 0, 0⟩ : ℤ) : ℚ), issues := [], fixed := [] }

def c2SecScan : ScanOutput :=
  { score := ((securityCalculateScore 1 0 : ℤ) : ℚ),
    issues := [IssueItem.record c2SecretIssue], fixed := [] }

/-! ## Claim C8: scanner failure semantics -/
/-- The data the code validator's `try` block produced when it succeeds. -/
structure CodeRunData where
  metrics : CodeMetrics
  issues : List Issue
  fixed : List FixEntry

/-- `CodeValidator.validate` seen at the try/catch level: on success the
score comes from the metrics and the issue objects are returned; the
`catch` branch returns score 0 and pushes the single plain string
`Code validation failed: <message>` as the whole issues array. -/
def codeValidateRun : Except String CodeRunData → ScanOutput
  | .ok d =>
    { score := ((codeCalculateScore d.metrics : ℤ) : ℚ),
      issues := d.issues.map IssueItem.record, fixed := d.fixed }
  | .error e =>
    { score := 0, issues := [IssueItem.plain ("Code validation failed: " ++ e)], fixed := [] }

/-- The data the security validator's `try` block produced on success. -/
structure SecurityRunData where
  secretsFound : Nat
  vulnerabilities : Nat
  issues : List Issue

/-- `SecurityValidator.validate` at the try/catch level. -/
def securityValidateRun : Except String SecurityRunData → ScanOutput
  | .ok d =>
    { score := ((securityCalculateScore d.secretsFound d.vulnerabilities : ℤ) : ℚ),
      issues := d.issues.map IssueItem.record, fixed := [] }
  | .error e =>
    { score := 0, issues := [IssueItem.plain ("Security validation failed: " ++ e)], fixed := [] }

/-! ## Claim C7: file discovery

The three validators each build their candidate file list by looping over
an ordered table of glob patterns, pushing every `glob.sync` result onto
one array (`files.push(...found)`).  The filesystem is modelled as a list
of distinct relative file paths; each glob pattern becomes a decidable
predicate on a path (matching on the final path component, with `glob`'s
default rule that a `*` wildcard never matches a leading dot), and the
shared `ignore` table drops the dependency/build/coverage/VCS directories
(and `**/*.min.js` for the security scanner). -/
/-- Path components, split at `/` (the sources normalise `\` to `/`). -/
def pathSegments (p : String) : List (List Char) := splitOnChar '/' p.data

/-- `path.basename`: the final path component. -/
def basenameCh (p : String) : List Char := (pathSegments p).getLastD []

/-- One glob pattern from the validators' tables: `suffixPat ext` stands
for `**/*<ext>` (basename ends with `ext`), `envPat` for `**/*.env*`, and
`dotRcPat` for `**/.*rc`. -/
inductive GlobPat where
  | suffixPat (ext : String)
  | envPat
  | dotRcPat
  deriving DecidableEq, Repr

/-- Does a glob pattern match a path? -/
def globMatches : GlobPat → String → Bool
  | .suffixPat ext, p =>
    let b := basenameCh p
    endsWithCh ext.data b && !(['.'].isPrefixOf b)
  | .envPat, p =>
    let b := basenameCh p
    hasSubstr ".env".data b && !(['.'].isPrefixOf b)
  | .dotRcPat, p =>
    let b := basenameCh p
    ['.'].isPrefixOf b && endsWithCh "rc".data (b.drop 1)

/-- The shared `ignore` table: `node_modules/**`, `dist/**`, `build/**`,
`coverage/**`, `.git/**` (matching the leading path component). -/
def ignoredCommon (p : String) : Bool :=
  match pathSegments p with
  | [] => false
  | first :: _ =>
    ["node_modules".data, "dist".data, "build".data, "coverage".data, ".git".data].contains first

/-- The security scanner's extra ignore entry `**/*.min.js`. -/
def securityIgnoredExtra (p : String) : Bool :=
  endsWithCh ".min.js".data (basenameCh p)

/-- The file-extension patterns of `CodeValidator._findCodeFiles`:
`**/*.js`, `**/*.jsx`, `**/*.ts`, `**/*.tsx`. -/
def codeFileSuffixes : List String := [".js", ".jsx", ".ts", ".tsx"]

def codeFilePatterns : List GlobPat := codeFileSuffixes.map GlobPat.suffixPat

/-- The patterns of `SecurityValidator._findFilesToScan`: the code
patterns plus `**/*.json`, `**/*.yaml`, `**/*.yml`, `**/*.env*`,
`**/*.config.js`, `**/.*rc`, in source order. -/
def securityFilePatterns : List GlobPat :=
  [.suffixPat ".js", .suffixPat ".jsx", .suffixPat ".ts", .suffixPat ".tsx",
   .suffixPat ".json", .suffixPat ".yaml", .suffixPat ".yml",
   .envPat, .suffixPat ".config.js", .dotRcPat]

/-- The patterns of `PerformanceValidator._findBundleFiles`: the code
patterns plus `**/*.css`, `**/*.scss`, `**/*.sass`. -/
def bundleFileSuffixes : List String := codeFileSuffixes ++ [".css", ".scss", ".sass"]

def bundleFilePatterns : List GlobPat := bundleFileSuffixes.map GlobPat.suffixPat

/-- The common per-pattern loop: for each pattern in order, append every
file matching it (and not ignored) to the result. -/
def findFilesByPatterns (pats : List GlobPat) (extraIgnore : String → Bool)
    (files : List String) : List String :=
  pats.flatMap (fun g =>
    files.filter (fun f => globMatches g f && !ignoredCommon f && !extraIgnore f))

/-- `CodeValidator._findCodeFiles`. -/
def findCodeFiles (files : List String) : List String :=
  findFilesByPatterns codeFilePatterns (fun _ => false) files

/-- `SecurityValidator._findFilesToScan`. -/
def findFilesToScan (files : List String) : List String :=
  findFilesByPatterns securityFilePatterns securityIgnoredExtra files

/-- `PerformanceValidator._findBundleFiles`. -/
def findBundleFiles (files : List String) : List String :=
  findFilesByPatterns bundleFilePatterns (fun _ => false) files

/-- Pairwise incomparability (neither is a suffix of the other) of a list
of extension strings; decidable, checked by `decide` on the two tables. -/
def suffixIncomparable (exts : List String) : Prop :=
  exts.Pairwise (fun s t => ¬ s.data <:+ t.data ∧ ¬ t.data <:+ s.data)

/-! ## The secret scanner

Each entry of `SecurityValidator.secretPatterns` is a JavaScript regex;
here each becomes an executable matcher over character lists.  A `Matcher`
attempts a match at the start of its input and returns the consumed
characters and the rest; `firstMatch` slides it along the line, giving the
leftmost match (the `matches[0]` the source puts in the issue message).
Greedy character-class runs (`[...]+`, `[...]{n,}`) are implemented by
maximal munch, which coincides with the JavaScript semantics for these
patterns because each class excludes the character that must follow it;
ordered alternation and optional groups backtrack through an explicit
continuation (`mAlt2Then`, `mOptThen`), mirroring the regex engine's
left-to-right preference. -/
def Matcher : Type := List Char → Option (List Char × List Char)

/-- Match the empty string. -/
def mEmpty : Matcher := fun cs => some ([], cs)

/-- Match a literal, case-sensitively. -/
def mLit (s : String) : Matcher := fun cs =>
  if s.data.isPrefixOf cs then some (s.data, cs.drop s.data.length) else none

/-- Match a literal, case-insensitively (the `i` regex flag), preserving
the input's own characters in the consumed text. -/
def mLitCI (s : String) : Matcher := fun cs =>
  let pre := cs.take s.data.length
  if pre.length = s.data.length &&
      (List.zip pre s.data).all (fun pc => pc.1.toLower == pc.2.toLower) then
    some (pre, cs.drop s.data.length)
  else none

/-- Match one character from an explicit set (a regex `[...]` of literal
characters). -/
def mCharIn (s : String) : Matcher := fun cs =>
  match cs with
  | [] => none
  | c :: rest => if s.data.contains c then some ([c], rest) else none

/-- Greedy possibly-empty class run (regex `[...]*`). -/
def mRun (f : Char → Bool) : Matcher := fun cs =>
  let t := cs.takeWhile f
  some (t, cs.drop t.length)

/-- Greedy class run of at least `n` characters (regex `[...]{n,}`,
`[...]+` for `n = 1`). -/
def mRunAtLeast (f : Char → Bool) (n : Nat) : Matcher := fun cs =>
  let t := cs.takeWhile f
  if n ≤ t.length then some (t, cs.drop t.length) else none

/-- Class run of exactly `n` characters (regex `[...]{n}`). -/
def mRunExactly (f : Char → Bool) (n : Nat) : Matcher := fun cs =>
  let t := cs.take n
  if t.length = n && t.all f then some (t, cs.drop n) else none

/-- Sequencing. -/
def mThen (a b : Matcher) : Matcher := fun cs =>
  match a cs with
  | none => none
  | some (m1, r1) =>
    match b r1 with
    | none => none
    | some (m2, r2) => some (m1 ++ m2, r2)

def mSeq (ms : List Matcher) : Matcher := ms.foldr mThen mEmpty

/-- Ordered choice. -/
def mOr (a b : Matcher) : Matcher := fun cs =>
  match a cs with
  | some r => some r
  | none => b cs

/-- Optional group followed by continuation `k` (regex `(...)?k`): prefer
consuming the group, fall back to `k` alone. -/
def mOptThen (a k : Matcher) : Matcher := mOr (mThen a k) k

/-- Two-way alternation followed by continuation (regex `(a|b)k`). -/
def mAlt2Then (a b k : Matcher) : Matcher := mOr (mThen a k) (mThen b k)

/-- Three-way alternation followed by continuation (regex `(a|b|c)k`). -/
def mAlt3Then (a b c k : Matcher) : Matcher :=
  mOr (mThen a k) (mOr (mThen b k) (mThen c k))

/-- Leftmost match of `m` in a line: slide the matcher along every start
position; return the consumed text of the first success. -/
def firstMatch (m : Matcher) : List Char → Option (List Char)
  | [] =>
    match m [] with
    | some (mt, _) => some mt
    | none => none
  | c :: rest =>
    match m (c :: rest) with
    | some (mt, _) => some mt
    | none => firstMatch m rest

/-! ### Character classes of the secret signatures -/
def isUpperDigit (c : Char) : Bool := c.isUpper || c.isDigit

def isAwsSecretChar (c : Char) : Bool :=
  c.isAlpha || c.isDigit || c = '/' || c = '+' || c = '='

def isNotQuote (c : Char) : Bool := !(c = '"' || c = '\x27')

def isJwtChar (c : Char) : Bool :=
  c.isAlpha || c.isDigit || c = '-' || c = '_' || c = '='

def isJwtTailChar (c : Char) : Bool :=
  c.isAlpha || c.isDigit || c = '-' || c = '_' || c = '.' || c = '+' || c = '/' || c = '='

def isNotWsQuote (c : Char) : Bool := !(isWsChar c) && isNotQuote c

def isSecretValChar (c : Char) : Bool :=
  c.isAlpha || c.isDigit || c = '+' || c = '/' || c = '='

/-! ### The eight secret signatures -/
/-- `/AKIA[0-9A-Z]{16}/g`. -/
def awsAccessKeyMatcher : Matcher := mThen (mLit "AKIA") (mRunExactly isUpperDigit 16)

/-- `/[A-Za-z0-9/+=]{40}/g`. -/
def awsSecretKeyMatcher : Matcher := mRunExactly isAwsSecretChar 40

/-- The quote class `["']`. -/
def quoteChars : String := "\"\x27"

/-- `/(?:password|pwd|pass)\s*[:=]\s*["'][^"']{6,}["']/gi`. -/
def passwordMatcher : Matcher :=
  mAlt3Then (mLitCI "password") (mLitCI "pwd") (mLitCI "pass")
    (mSeq [mRun isWsChar, mCharIn ":=", mRun isWsChar, mCharIn quoteChars,
      mRunAtLeast isNotQuote 6, mCharIn quoteChars])

/-- `/-----BEGIN (RSA )?PRIVATE KEY-----/g`. -/
def privateKeyMatcher : Matcher :=
  mThen (mLit "-----BEGIN ") (mOptThen (mLit "RSA ") (mLit "PRIVATE KEY-----"))

/-- `/eyJ[A-Za-z0-9-_=]+\.[A-Za-z0-9-_=]+\.?[A-Za-z0-9-_.+/=]*\/g`. -/
def jwtMatcher : Matcher :=
  mSeq [mLit "eyJ", mRunAtLeast isJwtChar 1, mLit ".", mRunAtLeast isJwtChar 1,
    mOptThen (mLit ".") (mRun isJwtTailChar)]

/-- `/(mongodb|mysql|postgresql):\/\/[^\s"']+/gi`. -/
def databaseUrlMatcher : Matcher :=
  mAlt3Then (mLitCI "mongodb") (mLitCI "mysql") (mLitCI "postgresql")
    (mThen (mLit "://") (mRunAtLeast isNotWsQuote 1))

/-- `/(?:api[_-]?key|apikey)\s*[:=]\s*["'][^"']{16,}["']/gi`. -/
def apiKeyMatcher : Matcher :=
  mAlt2Then (mThen (mLitCI "api") (mOptThen (mCharIn "_-") (mLitCI "key"))) (mLitCI "apikey")
    (mSeq [mRun isWsChar, mCharIn ":=", mRun isWsChar, mCharIn quoteChars,
      mRunAtLeast isNotQuote 16, mCharIn quoteChars])

/-- `/(?:secret|token)\s*[:=]\s*["'][A-Za-z0-9+/=]{20,}["']/gi`. -/
def genericSecretMatcher : Matcher :=
  mAlt2Then (mLitCI "secret") (mLitCI "token")
    (mSeq [mRun isWsChar, mCharIn ":=", mRun isWsChar, mCharIn quoteChars,
      mRunAtLeast isSecretValChar 20, mCharIn quoteChars])

/-- One entry of `SecurityValidator.secretPatterns`.  No entry of the
source table defines a `contextPattern`, so the scanner's context check is
never taken and is omitted here. -/
structure SecretPattern where
  name : String
  description : String
  search : Matcher

/-- `SecurityValidator.secretPatterns`, in source order. -/
def secretPatterns : List SecretPattern :=
  [ { name := "AWS Access Key", description := "AWS Access Key ID", search := awsAccessKeyMatcher },
    { name := "AWS Secret Key", description := "AWS Secret Access Key", search := awsSecretKeyMatcher },
    { name := "Password", description := "Hardcoded password", search := passwordMatcher },
    { name := "Private Key", description := "Private key detected", search := privateKeyMatcher },
    { name := "JWT Token", description := "JSON Web Token", search := jwtMatcher },
    { name := "Database URL", description := "Database connection string", search := databaseUrlMatcher },
    { name := "API Key", description := "API key detected", search := apiKeyMatcher },
    { name := "Generic Secret", description := "Generic secret or token", search := genericSecretMatcher } ]

/-- `SecurityValidator._isCommentLine`. -/
def isCommentLine (line : List Char) : Bool :=
  let trimmed := jsTrim line
  "//".data.isPrefixOf trimmed || "/*".data.isPrefixOf trimmed ||
    ['*'].isPrefixOf trimmed || ['#'].isPrefixOf trimmed

/-- `indexOf` on path segments. -/
def idxOfSeg (x : List Char) : List (List Char) → Nat
  | [] => 0
  | s :: rest => if s == x then 0 else idxOfSeg x rest + 1

/-- `SecurityValidator._isTestFile`: test/spec file names are always test
files; inside a `fixtures` tree only sub-paths after the fixture project
name that contain a test directory count; otherwise any `test`, `tests` or
`__tests__` path segment does. -/
def isTestFile (filePath : String) : Bool :=
  let fileName := basenameCh filePath
  let parts := pathSegments filePath
  if hasSubstr ".test.".data fileName || hasSubstr ".spec.".data fileName then true
  else if parts.contains "fixtures".data &&
      decide (idxOfSeg "fixtures".data parts < parts.length - 1) then
    let pathAfterProject := parts.drop (idxOfSeg "fixtures".data parts + 2)
    pathAfterProject.contains "test".data || pathAfterProject.contains "tests".data ||
      pathAfterProject.contains "__tests__".data
  else
    parts.any (fun part => part == "test".data || part == "tests".data ||
      part == "__tests__".data)

/-- `SecurityValidator` configuration (only the part the secret scan
reads). -/
structure SecurityConfig where
  allowedSecretPatterns : List String := []
  deriving Repr

def defaultSecurityConfig : SecurityConfig := {}

/-- The built-in allow-list of `SecurityValidator._isAllowedSecret`. -/
def defaultAllowedPatterns : List String :=
  ["example", "placeholder", "dummy", "test-key", "sample", "your-api-key-here",
   "xxxxx", "aaaaa", "changeme", "replace-me"]

/-- `SecurityValidator._isAllowedSecret`: the lowercased trimmed line is
allowed if it contains any allow-list token, or if it contains `//`
together with `example` or `placeholder` (that comment check sits inside
the `some` callback in the source, so it only fires when the combined
allow-list is non-empty — which it always is, having ten built-ins). -/
def isAllowedSecret (cfg : SecurityConfig) (line : List Char) : Bool :=
  let trimmed := lowerCh (jsTrim line)
  let allowedPatterns := defaultAllowedPatterns ++ cfg.allowedSecretPatterns
  allowedPatterns.any (fun pat =>
    (hasSubstr "//".data trimmed &&
      (hasSubstr "example".data trimmed || hasSubstr "placeholder".data trimmed)) ||
    hasSubstr (lowerCh pat.data) trimmed)

/-- The issue record built for one surviving match. -/
def mkSecretIssue (filePath : String) (lineNumber : Nat) (p : SecretPattern)
    (matched : List Char) : Issue :=
  { file := filePath, line := lineNumber, type := "hardcoded-secret", severity := "high",
    message := p.description ++ ": " ++ String.mk (matched.take 20) ++ "...",
    rule := "no-hardcoded-secrets", secretType := some p.name }

/-- The per-line pattern loop of `SecurityValidator._scanFileForSecrets`. -/
def scanLineForSecrets (cfg : SecurityConfig) (filePath : String) (lineNumber : Nat)
    (line : List Char) : List Issue :=
  secretPatterns.filterMap (fun p =>
    match firstMatch p.search line with
    | none => none
    | some matched =>
      if isAllowedSecret cfg line then none
      else some (mkSecretIssue filePath lineNumber p matched))

/-- `SecurityValidator._scanFileForSecrets`. -/
def scanFileForSecrets (cfg : SecurityConfig) (filePath : String)
    (content : List Char) : List Issue :=
  (splitLines content).enum.flatMap (fun il =>
    if isCommentLine il.2 || isTestFile filePath then []
    else scanLineForSecrets cfg filePath (il.1 + 1) il.2)

/-! ## Claim C5: the secret allow-listing scenario -/
def c5LineWithComment : List Char :=
  "const apiKey = \"AKIA1234567890123456EXAMPLE\"; // example".data

def c5LineNoComment : List Char :=
  "const apiKey = \"AKIA1234567890123456EXAMPLE\";".data

def c5LineBare : List Char :=
  "const apiKey = \"AKIA1234567890123456\";".data

/-! ## Claim C10: secret previews in issue messages -/
def awsIssueExample : Issue :=
  { file := "src/config.js", line := 1, type := "hardcoded-secret", severity := "high",
    message := "AWS Access Key ID: AKIA1234567890123456...",
    rule := "no-hardcoded-secrets", secretType := some "AWS Access Key" }

/-! ## The code-quality scanner (`CodeValidator`)

The five function-detection regexes are embedded as matchers that return
the captured function name (`match[1]`).  As with the secret signatures,
greedy runs are maximal-munch (each class excludes its follower) and
optional groups / alternations backtrack through continuations. -/
/-- Consume a literal. -/
def eatLit (s : String) (cs : List Char) : Option (List Char) :=
  if s.data.isPrefixOf cs then some (cs.drop s.data.length) else none

/-- Consume a non-empty maximal run (regex `[...]+`). -/
def eatRun1 (f : Char → Bool) (cs : List Char) : Option (List Char) :=
  let t := cs.takeWhile f
  if t.isEmpty then none else some (cs.drop t.length)

/-- Consume a possibly-empty maximal run (regex `[...]*`). -/
def eatRun (f : Char → Bool) (cs : List Char) : List Char := cs.dropWhile f

/-- Capture a non-empty `\w+` word. -/
def grabWord (cs : List Char) : Option (List Char × List Char) :=
  let t := cs.takeWhile isWordChar
  if t.isEmpty then none else some (t, cs.drop t.length)

/-- Optional group with backtracking: try `a` then `k`; on failure `k`
alone (regex `(...)?` followed by `k`). -/
def tryOptThen {α : Type} (a : List Char → Option (List Char))
    (k : List Char → Option α) (cs : List Char) : Option α :=
  match (a cs).bind k with
  | some v => some v
  | none => k cs

/-- Ordered two-way alternation with continuation. -/
def tryAlt2Then {α : Type} (a b : List Char → Option (List Char))
    (k : List Char → Option α) (cs : List Char) : Option α :=
  match (a cs).bind k with
  | some v => some v
  | none => (b cs).bind k

/-- Ordered three-way alternation with continuation. -/
def tryAlt3Then {α : Type} (a b c : List Char → Option (List Char))
    (k : List Char → Option α) (cs : List Char) : Option α :=
  match (a cs).bind k with
  | some v => some v
  | none => tryAlt2Then b c k cs

/-- `(?:async\s+)?` — used by four of the five patterns. -/
def eatAsync (cs : List Char) : Option (List Char) :=
  (eatLit "async" cs).bind (eatRun1 isWsChar)

/-- `/^(?:export\s+)?(?:async\s+)?function\s+(\w+)/` (anchored). -/
def matchFnDecl (cs : List Char) : Option (List Char) :=
  tryOptThen (fun x => (eatLit "export" x).bind (eatRun1 isWsChar))
    (fun cs1 => tryOptThen eatAsync
      (fun cs2 =>
        ((eatLit "function" cs2).bind (eatRun1 isWsChar)).bind
          (fun cs4 => (grabWord cs4).map Prod.fst)) cs1) cs

/-- `/(?:const|let|var)\s+(\w+)\s*=\s*(?:async\s+)?\([^)]*\)\s*=>/` at one
position. -/
def matchArrowAt (cs : List Char) : Option (List Char) :=
  tryAlt3Then (eatLit "const") (eatLit "let") (eatLit "var")
    (fun cs1 => do
      let cs2 ← eatRun1 isWsChar cs1
      let (name, cs3) ← grabWord cs2
      let cs5 ← eatLit "=" (eatRun isWsChar cs3)
      tryOptThen eatAsync
        (fun cs6 => do
          let cs7 ← eatLit "(" cs6
          let cs8 ← eatLit ")" (eatRun (fun c => !(c = ')')) cs7)
          let _ ← eatLit "=>" (eatRun isWsChar cs8)
          pure name)
        (eatRun isWsChar cs5)) cs

/-- `/(?:const|let|var)\s+(\w+)\s*=\s*(?:async\s+)?function/` at one
position. -/
def matchFnExprAt (cs : List Char) : Option (List Char) :=
  tryAlt3Then (eatLit "const") (eatLit "let") (eatLit "var")
    (fun cs1 => do
      let cs2 ← eatRun1 isWsChar cs1
      let (name, cs3) ← grabWord cs2
      let cs5 ← eatLit "=" (eatRun isWsChar cs3)
      tryOptThen eatAsync
        (fun cs6 => (eatLit "function" cs6).map (fun _ => name))
        (eatRun isWsChar cs5)) cs

/-- `/(\w+)\s*:\s*(?:async\s+)?function/` at one position. -/
def matchObjMethodAt (cs : List Char) : Option (List Char) := do
  let (name, cs1) ← grabWord cs
  let cs3 ← eatLit ":" (eatRun isWsChar cs1)
  tryOptThen eatAsync
    (fun cs4 => (eatLit "function" cs4).map (fun _ => name))
    (eatRun isWsChar cs3)

/-- `/(?:async\s+)?(\w+)\s*\([^)]*\)\s*\{/` at one position. -/
def matchMethodDefAt (cs : List Char) : Option (List Char) :=
  tryOptThen eatAsync
    (fun cs1 => do
      let (name, cs2) ← grabWord cs1
      let cs4 ← eatLit "(" (eatRun isWsChar cs2)
      let cs5 ← eatLit ")" (eatRun (fun c => !(c = ')')) cs4)
      let _ ← eatLit "\x7b" (eatRun isWsChar cs5)
      pure name) cs

/-- Slide an unanchored pattern along the line, leftmost match first. -/
def searchPat (m : List Char → Option (List Char)) : List Char → Option (List Char)
  | [] => m []
  | c :: rest =>
    match m (c :: rest) with
    | some name => some name
    | none => searchPat m rest

/-- `CodeValidator._extractFunctions`' per-line pattern loop: the five
patterns are tried in source order, first match wins; the captured name is
returned. -/
def matchesFunctionPattern (trimmed : List Char) : Option (List Char) :=
  match matchFnDecl trimmed with
  | some n => some n
  | none =>
    match searchPat matchArrowAt trimmed with
    | some n => some n
    | none =>
      match searchPat matchFnExprAt trimmed with
      | some n => some n
      | none =>
        match searchPat matchObjMethodAt trimmed with
        | some n => some n
        | none => searchPat matchMethodDefAt trimmed

/-- Lines skipped by `_extractFunctions`: empty lines and comment lines. -/
def isSkippedLine (trimmed : List Char) : Bool :=
  trimmed.isEmpty || "//".data.isPrefixOf trimmed || "/*".data.isPrefixOf trimmed ||
    ['*'].isPrefixOf trimmed

/-- The character loop shared by `CodeValidator._findFunctionEnd` and
`PerformanceValidator._checkNestedLoop`: update the brace count across one
line; `none` means the count returned to zero after an opening brace had
been seen (the source functions return at that exact point, ignoring the
rest of the line). -/
def braceScanLine : List Char → Int → Bool → Option (Int × Bool)
  | [], braceCount, opened => some (braceCount, opened)
  | c :: rest, braceCount, opened =>
    if c = '\x7b' then braceScanLine rest (braceCount + 1) true
    else if c = '\x7d' then
      if opened && (braceCount - 1) == 0 then none
      else braceScanLine rest (braceCount - 1) opened
    else braceScanLine rest braceCount opened

def findFunctionEndFrom : List (List Char) → Nat → Int → Bool → Nat → Nat
  | [], _, _, _, lastIdx => lastIdx
  | l :: rest, idx, bc, opened, lastIdx =>
    match braceScanLine l bc opened with
    | none => idx
    | some (bc2, opened2) => findFunctionEndFrom rest (idx + 1) bc2 opened2 lastIdx

/-- `CodeValidator._findFunctionEnd`: first line on which the running
brace count returns to zero; `lines.length - 1` if it never does. -/
def findFunctionEnd (lines : List (List Char)) (startLine : Nat) : Nat :=
  findFunctionEndFrom (lines.drop startLine) startLine 0 false (lines.length - 1)

/-- One record of `_extractFunctions`' output. -/
structure FuncInfo where
  name : List Char
  startLine : Nat
  endLine : Nat
  lineCount : Nat
  deriving DecidableEq, Repr

/-- `CodeValidator._extractFunctions`. -/
def extractFunctions (lines : List (List Char)) : List FuncInfo :=
  lines.enum.filterMap (fun il =>
    let trimmed := jsTrim il.2
    if isSkippedLine trimmed then none
    else
      match matchesFunctionPattern trimmed with
      | none => none
      | some name =>
        let endLine := findFunctionEnd lines il.1
        some { name := name, startLine := il.1, endLine := endLine,
               lineCount := endLine - il.1 + 1 })

/-- `CodeValidator._hasInlineComment`: a comment marker directly above, or
a block-comment opener two lines above. -/
def hasInlineComment (lines : List (List Char)) (functionLine : Nat) : Bool :=
  (if 0 < functionLine then
    let prevLine := jsTrim (lines.getD (functionLine - 1) [])
    "//".data.isPrefixOf prevLine || "/*".data.isPrefixOf prevLine ||
      endsWithCh "*/".data prevLine
  else false) ||
  (if 1 < functionLine then
    let prevLine2 := jsTrim (lines.getD (functionLine - 2) [])
    "/*".data.isPrefixOf prevLine2 || hasSubstr "/**".data prevLine2
  else false)

/-- `CodeValidator` configuration. -/
structure CodeConfig where
  enforceComments : Bool := true
  maxFunctionLines : Nat := 50
  deriving Repr

/-- `lines.splice(idx, 0, newLine)`. -/
def spliceInsert (lines : List (List Char)) (idx : Nat) (newLine : List Char) :
    List (List Char) :=
  lines.take idx ++ [newLine] ++ lines.drop idx

def missingCommentIssue (filePath : String) (func : FuncInfo) : Issue :=
  { file := filePath, line := func.startLine + 1, type := "missing-comment",
    severity := "warning",
    message := "Function \x27" ++ String.mk func.name ++ "\x27 missing in-line comment",
    rule := "enforce-comments" }

def longFunctionIssue (cfg : CodeConfig) (filePath : String) (func : FuncInfo) : Issue :=
  { file := filePath, line := func.startLine + 1, type := "long-function",
    severity := "warning",
    message := "Function \x27" ++ String.mk func.name ++ "\x27 has " ++
      toString func.lineCount ++ " lines (max: " ++ toString cfg.maxFunctionLines ++ ")",
    rule := "max-function-lines" }

/-- The placeholder comment the auto-fixer splices in. -/
def placeholderComment (func : FuncInfo) : List Char :=
  ("// " ++ String.mk func.name ++ " - Add description here").data

/-- State threaded through `_validateFile`'s function loop: the (possibly
spliced) line array and the accumulated issues, fixes and metrics. -/
structure FileScanState where
  lines : List (List Char)
  issues : List Issue
  fixed : List FixEntry
  totalFunctions : Nat
  commentedFunctions : Nat
  longFunctions : Nat

/-- One iteration of `_validateFile`'s loop over the extracted functions.
The comment check reads the current (already spliced) line array, while
`func.startLine` is the stale index recorded before any splices. -/
def processFunc (cfg : CodeConfig) (filePath : String) (autoFix : Bool)
    (st : FileScanState) (func : FuncInfo) : FileScanState :=
  let hasComment := hasInlineComment st.lines func.startLine
  let st1 :=
    if hasComment then { st with commentedFunctions := st.commentedFunctions + 1 }
    else if cfg.enforceComments then
      let issue := missingCommentIssue filePath func
      if autoFix then
        { st with lines := spliceInsert st.lines func.startLine (placeholderComment func),
                  fixed := st.fixed ++ [⟨issue, "Added placeholder comment"⟩] }
      else { st with issues := st.issues ++ [issue] }
    else st
  if cfg.maxFunctionLines < func.lineCount then
    { st1 with longFunctions := st1.longFunctions + 1,
               issues := st1.issues ++ [longFunctionIssue cfg filePath func] }
  else st1

/-- `_validateFile`'s result: issues, fixes, metrics and the final line
array (written back to disk when `autoFix` made changes). -/
structure FileResult where
  issues : List Issue
  fixed : List FixEntry
  metrics : CodeMetrics
  lines : List (List Char)
  deriving Repr

/-- `CodeValidator._validateFile`. -/
def validateFile (cfg : CodeConfig) (filePath : String) (content : List Char)
    (autoFix : Bool) : FileResult :=
  let lines := splitLines content
  let functions := extractFunctions lines
  let st0 : FileScanState :=
    { lines := lines, issues := [], fixed := [],
      totalFunctions := functions.length, commentedFunctions := 0, longFunctions := 0 }
  let st := functions.foldl (processFunc cfg filePath autoFix) st0
  { issues := st.issues, fixed := st.fixed,
    metrics := { totalFunctions := st.totalFunctions,
                 commentedFunctions := st.commentedFunctions,
                 longFunctions := st.longFunctions },
    lines := st.lines }

/-! ## Claim C9: auto-fix convergence -/
/-- A file with two uncommented one-line-body functions. -/
def c9Content : List Char :=
  "function alpha() \x7b\n\x7d\nfunction beta() \x7b\n\x7d".data

/-! ## The performance scanner's code checks -/
/-- `/console\.log\(/`. -/
def consoleLogTest (line : List Char) : Bool := hasSubstr "console.log(".data line

/-- After a `)` somewhere in the rest, look for `.getElementById`
(the `\).*\.getElementById` tail of the DOM-query regex). -/
def domScanParen : List Char → Bool
  | [] => false
  | c :: rest =>
    (if c = ')' then hasSubstr ".getElementById".data rest else false) || domScanParen rest

/-- `/document\.getElementById\(.+\).*\.getElementById/`: after the
literal, at least one character, a `)`, then `.getElementById` again. -/
def domQueryTest : List Char → Bool
  | [] => false
  | c :: rest =>
    (if "document.getElementById(".data.isPrefixOf (c :: rest) then
      match (c :: rest).drop "document.getElementById(".data.length with
      | [] => false
      | _ :: tail => domScanParen tail
    else false) || domQueryTest rest

/-- `/\.forEach\(.+\.forEach/`: `.forEach(`, at least one character, then
`.forEach` again. -/
def nestedForEachTest : List Char → Bool
  | [] => false
  | c :: rest =>
    (if ".forEach(".data.isPrefixOf (c :: rest) then
      match (c :: rest).drop ".forEach(".data.length with
      | [] => false
      | _ :: tail => hasSubstr ".forEach".data tail
    else false) || nestedForEachTest rest

/-- `/JSON\.parse\(JSON\.stringify\(/`. -/
def cloneTest (line : List Char) : Bool :=
  hasSubstr "JSON.parse(JSON.stringify(".data line

/-- `PerformanceValidator._checkLineForPerformanceIssues`' anti-pattern
table, in source order: (test, message, severity, type). -/
def perfPatterns : List ((List Char → Bool) × String × String × String) :=
  [ (consoleLogTest, "console.log() statements can impact performance in production",
      "warning", "console-log"),
    (domQueryTest, "Multiple DOM queries should be cached", "warning", "dom-query"),
    (nestedForEachTest, "Nested forEach can be performance-intensive", "info",
      "nested-foreach"),
    (cloneTest, "Deep cloning with JSON is inefficient for large objects", "warning",
      "inefficient-clone") ]

/-- `PerformanceValidator._checkLineForPerformanceIssues`.  The source
stores `path.relative(process.cwd(), filePath)`; paths here are already
relative. -/
def checkLineForPerformanceIssues (filePath : String) (lineNumber : Nat)
    (line : List Char) : List Issue :=
  perfPatterns.filterMap (fun pt =>
    if pt.1 line then
      some { file := filePath, line := lineNumber, type := pt.2.2.2, severity := pt.2.2.1,
             message := pt.2.1, rule := "performance-optimization" }
    else none)

def nestedLoopIssue (filePath : String) (lineNumber : Nat) : Issue :=
  { file := filePath, line := lineNumber, type := "nested-loop", severity := "info",
    message := "Nested loops can cause performance issues with large datasets",
    rule := "performance-optimization" }

/-- The forward scan of `PerformanceValidator._checkNestedLoop`, over a
window of at most 10 lines starting at the triggering line itself: braces
of the line are counted first; then, if an opening brace has been seen and
the count is positive and the line contains `for (`, a nested-loop issue
for that line is returned — note the very first iteration examines the
triggering line. -/
def checkNestedLoopGo (filePath : String) :
    List (List Char) → Nat → Nat → Int → Bool → Option Issue
  | _, 0, _, _, _ => none
  | [], _ + 1, _, _, _ => none
  | l :: rest, fuel + 1, idx, bc, opened =>
    match braceScanLine l bc opened with
    | none => none
    | some (bc2, opened2) =>
      if opened2 && decide (0 < bc2) && hasSubstr "for (".data (jsTrim l) then
        some (nestedLoopIssue filePath (idx + 1))
      else checkNestedLoopGo filePath rest fuel (idx + 1) bc2 opened2

/-- `PerformanceValidator._checkNestedLoop`. -/
def checkNestedLoop (filePath : String) (lines : List (List Char))
    (startLineIndex : Nat) : Option Issue :=
  checkNestedLoopGo filePath (lines.drop startLineIndex) 10 startLineIndex 0 false

/-- The per-file part of `PerformanceValidator._checkCodePerformance`:
anti-pattern issues per line, and a nested-loop check launched from every
line containing `for (`. -/
def checkFilePerformance (filePath : String) (content : List Char) : List Issue :=
  let lines := splitLines content
  lines.enum.flatMap (fun il =>
    checkLineForPerformanceIssues filePath (il.1 + 1) il.2 ++
      (if hasSubstr "for (".data il.2 then
        match checkNestedLoop filePath lines il.1 with
        | some iss => [iss]
        | none => []
      else []))

/-- `PerformanceValidator._checkCodePerformance` over the discovered
files, given as (path, content) pairs. -/
def checkCodePerformance (files : List (String × List Char)) : List Issue :=
  files.flatMap (fun f => checkFilePerformance f.1 f.2)

/-! ## Claim C6: nested-loop detection -/
def singleLoopContent : List Char :=
  "for (let i = 0; i < 10; i++) \x7b\n  doWork(i);\n\x7d".data

def nestedLoopContent : List Char :=
  "for (let i = 0; i < 10; i++) \x7b\n  for (let j = 0; j < 10; j++) \x7b\n    doWork(i, j);\n  \x7d\n\x7d".data

/-! # Theorems -/

/-! ### Elementary facts about `jsRound` -/
theorem jsRound_mono {p q : ℚ} (h : p ≤ q) : jsRound p ≤ jsRound q :=
  Int.floor_le_floor (by linarith)

theorem jsRound_intCast (n : ℤ) : jsRound (n : ℚ) = n := by
  unfold jsRound
  rw [add_comm, Int.floor_add_int]
  norm_num

theorem jsRound_le_intCast {q : ℚ} {n : ℤ} (h : q ≤ (n : ℚ)) : jsRound q ≤ n := by
  have := jsRound_mono h
  rwa [jsRound_intCast] at this

theorem intCast_le_jsRound {q : ℚ} {n : ℤ} (h : (n : ℚ) ≤ q) : n ≤ jsRound q := by
  have := jsRound_mono h
  rwa [jsRound_intCast] at this

/-- `jsRound` commutes with clamping against integer bounds. -/
theorem jsRound_clamp (q : ℚ) :
    max 0 (min 100 (jsRound q)) = jsRound (max 0 (min 100 q)) := by
  rcases le_total q 100 with h1 | h1
  · rcases le_total q 0 with h2 | h2
    · have hm : min (100 : ℚ) q = q := min_eq_right h1
      have hM : max (0 : ℚ) q = 0 := max_eq_left h2
      rw [hm, hM]
      have hr : jsRound q ≤ 0 := jsRound_le_intCast (by exact_mod_cast h2)
      have : min (100 : ℤ) (jsRound q) = jsRound q := min_eq_right (by omega)
      rw [this]
      have : max (0 : ℤ) (jsRound q) = 0 := max_eq_left hr
      rw [this]
      simpa using (jsRound_intCast 0).symm
    · have hm : min (100 : ℚ) q = q := min_eq_right h1
      have hM : max (0 : ℚ) q = q := max_eq_right h2
      rw [hm, hM]
      have hr1 : jsRound q ≤ 100 := jsRound_le_intCast (by exact_mod_cast h1)
      have hr2 : (0 : ℤ) ≤ jsRound q := intCast_le_jsRound (by exact_mod_cast h2)
      rw [min_eq_right hr1, max_eq_right hr2]
  · have hm : min (100 : ℚ) q = 100 := min_eq_left h1
    have h0 : (0 : ℚ) ≤ 100 := by norm_num
    rw [hm, max_eq_right h0]
    have hr1 : (100 : ℤ) ≤ jsRound q := intCast_le_jsRound (by exact_mod_cast h1)
    rw [min_eq_left hr1]
    have : max (0 : ℤ) 100 = 100 := by norm_num
    rw [this]
    simpa using (jsRound_intCast 100).symm

/-! ## Claim C4: the code-quality score formula -/
/-- C4: for every metrics triple the code-quality score produced by
`CodeValidator._calculateScore` equals the specification's formula —
`commentRatio * 80 + 20 - (longFunctions/totalFunctions) * 20`, clamped to
[0, 100] and rounded to nearest — and when `totalFunctions = 0` the score
is exactly 100. -/
theorem code_score_matches_spec_formula (m : CodeMetrics) :
    codeCalculateScore m = specCodeScore m ∧
    (m.totalFunctions = 0 → codeCalculateScore m = 100) := by
  constructor
  · unfold codeCalculateScore specCodeScore
    by_cases h : m.totalFunctions = 0
    · simp [h]
    · simp only [h, if_false]
      exact jsRound_clamp _
  · intro h
    simp [codeCalculateScore, h]

/-- C4 witness: the zero-function metrics instance. -/
theorem code_score_matches_spec_formula_witness :
    codeCalculateScore ⟨0, 0, 0⟩ = specCodeScore ⟨0, 0, 0⟩ ∧
    ((⟨0, 0, 0⟩ : CodeMetrics).totalFunctions = 0 ∧ codeCalculateScore ⟨0, 0, 0⟩ = 100) :=
  ⟨(code_score_matches_spec_formula ⟨0, 0, 0⟩).1,
    rfl, (code_score_matches_spec_formula ⟨0, 0, 0⟩).2 rfl⟩

/-! ## Claim C3: score bounds -/
theorem codeCalculateScore_bounds (m : CodeMetrics) :
    0 ≤ codeCalculateScore m ∧ codeCalculateScore m ≤ 100 := by
  unfold codeCalculateScore
  by_cases h : m.totalFunctions = 0
  · simp [h]
  · simp only [h, if_false]
    refine ⟨le_max_left _ _, ?_⟩
    exact max_le (by norm_num) (min_le_left _ _)

theorem securityCalculateScore_bounds (s v : Nat) :
    0 ≤ securityCalculateScore s v ∧ securityCalculateScore s v ≤ 100 := by
  unfold securityCalculateScore
  constructor
  · exact le_max_left _ _
  · refine max_le (by norm_num) ?_
    have hs : (0 : ℤ) ≤ 15 * (s : ℤ) := by positivity
    have hv : (0 : ℤ) ≤ 10 * (v : ℤ) := by positivity
    omega

theorem perfCalculateScore_bounds (bs lim lf ud pi : Nat) :
    0 ≤ perfCalculateScore bs lim lf ud pi ∧ perfCalculateScore bs lim lf ud pi ≤ 100 := by
  unfold perfCalculateScore
  refine ⟨le_max_left _ _, ?_⟩
  refine max_le (by norm_num) ?_
  have hov : (0 : ℚ) ≤ (if bs ≤ lim then (0 : ℚ)
      else if lim = 0 then 30
      else min 30 (((bs : ℚ) / (lim : ℚ) - 1) * 20)) := by
    split
    · exact le_refl 0
    · split
      · norm_num
      · rename_i hgt hlim
        have hlt : lim < bs := Nat.lt_of_not_le hgt
        have hlpos : (0 : ℚ) < (lim : ℚ) := by
          exact_mod_cast Nat.pos_of_ne_zero hlim
        have hq : (lim : ℚ) < (bs : ℚ) := by exact_mod_cast hlt
        have hone : (1 : ℚ) < (bs : ℚ) / (lim : ℚ) := (one_lt_div hlpos).mpr hq
        have : (0 : ℚ) ≤ ((bs : ℚ) / (lim : ℚ) - 1) * 20 := by nlinarith
        exact le_min (by norm_num) this
  have h1 : (0 : ℚ) ≤ min 20 (5 * (lf : ℚ)) := le_min (by norm_num) (by positivity)
  have h2 : (0 : ℚ) ≤ min 15 (2 * (ud : ℚ)) := le_min (by norm_num) (by positivity)
  have h3 : (0 : ℚ) ≤ min 25 (2 * (pi : ℚ)) := le_min (by norm_num) (by positivity)
  refine jsRound_le_intCast ?_
  push_cast
  linarith

/-! ### Aggregator helper lemmas -/
theorem sdkStep_scores (st : SdkReport) (s : Standard) (r : ScanOutput) (pf : Bool) :
    (sdkStep st s r pf).scores = st.scores ++ [(s, r.score)] := by
  unfold sdkStep
  repeat' split <;> simp_all

theorem sdkStep_passed (st : SdkReport) (s : Standard) (r : ScanOutput) (pf : Bool) :
    (sdkStep st s r pf).passed = (st.passed && r.issues.isEmpty) := by
  unfold sdkStep
  repeat' split <;> simp_all

theorem sdkStep_issues (st : SdkReport) (s : Standard) (r : ScanOutput) (pf : Bool) :
    (sdkStep st s r pf).issues = st.issues ++ r.issues := by
  unfold sdkStep
  repeat' split <;> simp_all

theorem sdkValidate_scores_eq (req : List Standard) (cR sR pR : ScanOutput) :
    (sdkValidate req cR sR pR).scores =
      (includedStandards req).map (fun s => (s, (scanOutputFor s cR sR pR).score)) := by
  by_cases hc : Standard.code ∈ req <;>
    by_cases hs : Standard.security ∈ req <;>
      by_cases hp : Standard.performance ∈ req <;>
        simp [sdkValidate, sdkStep_scores, includedStandards, scanOutputFor, hc, hs, hp]

theorem sdkValidate_passed_iff (req : List Standard) (cR sR pR : ScanOutput) :
    (sdkValidate req cR sR pR).passed = true ↔
      ∀ s ∈ includedStandards req, (scanOutputFor s cR sR pR).issues = [] := by
  by_cases hc : Standard.code ∈ req <;>
    by_cases hs : Standard.security ∈ req <;>
      by_cases hp : Standard.performance ∈ req <;>
        simp [sdkValidate, sdkStep_passed, includedStandards, scanOutputFor, hc, hs, hp,
          List.isEmpty_iff, and_assoc]

theorem sdkValidate_overall_eq (req : List Standard) (cR sR pR : ScanOutput) :
    (sdkValidate req cR sR pR).overallScore =
      ((includedStandards req).map (fun s => (scanOutputFor s cR sR pR).score)).sum
        / ((includedStandards req).length : ℚ) := by
  have h := sdkValidate_scores_eq req cR sR pR
  simp only [sdkValidate] at h ⊢
  rw [h, List.map_map]
  simp [Function.comp_def]

theorem sdkValidate_issues_eq (req : List Standard) (cR sR pR : ScanOutput) :
    (sdkValidate req cR sR pR).issues =
      (includedStandards req).flatMap (fun s => (scanOutputFor s cR sR pR).issues) := by
  by_cases hc : Standard.code ∈ req <;>
    by_cases hs : Standard.security ∈ req <;>
      by_cases hp : Standard.performance ∈ req <;>
        simp [sdkValidate, sdkStep_issues, includedStandards, scanOutputFor, hc, hs, hp]

theorem mem_includedStandards (req : List Standard) (s : Standard) :
    s ∈ includedStandards req ↔ s ∈ req := by
  unfold includedStandards
  rw [List.mem_filter]
  cases s <;> simp_all

theorem includedStandards_nodup (req : List Standard) :
    (includedStandards req).Nodup :=
  List.Nodup.filter _ (by decide)

theorem includedStandards_length (req : List Standard) (hnd : req.Nodup) :
    (includedStandards req).length = req.length := by
  have h1 : (includedStandards req).toFinset = req.toFinset := by
    ext a
    simp [List.mem_toFinset, mem_includedStandards]
  have h2 := List.toFinset_card_of_nodup (includedStandards_nodup req)
  have h3 := List.toFinset_card_of_nodup hnd
  rw [h1, h3] at h2
  exact h2.symm

/-! ## Claim C1: the pass/fail criterion -/
/-- C1 counterexample: a validate run over the code standard whose scanner
scored 100 (forty commented functions, one over the length limit) but
emitted one warning issue has `passed = false`, while the claimed formula
`overallScore >= 80 AND count(severity in critical/error) == 0` evaluates
to true — so the claimed equivalence fails on this run. -/
theorem sdk_passed_not_score_threshold :
    ¬ (((sdkValidate [Standard.code] c1CodeScan emptyScan emptyScan).passed = true) ↔
      (80 ≤ (sdkValidate [Standard.code] c1CodeScan emptyScan emptyScan).overallScore ∧
        ((sdkValidate [Standard.code] c1CodeScan emptyScan emptyScan).issues.filter
          specCriticalSeverity).length = 0)) := by
  intro h
  have hfalse : ¬ ((sdkValidate [Standard.code] c1CodeScan emptyScan emptyScan).passed = true) := by
    rw [sdkValidate_passed_iff]
    intro hall
    have := hall Standard.code (by decide)
    simp [scanOutputFor, c1CodeScan] at this
  apply hfalse
  apply h.mpr
  constructor
  · rw [sdkValidate_overall_eq]
    rw [show includedStandards [Standard.code] = [Standard.code] from by decide]
    simp only [List.map_cons, List.map_nil, List.sum_cons, List.sum_nil, List.length_cons,
      List.length_nil, scanOutputFor, c1CodeScan]
    norm_num [codeCalculateScore, jsRound]
  · rw [sdkValidate_issues_eq]
    rw [show includedStandards [Standard.code] = [Standard.code] from by decide]
    decide

/-- C1 (amended): `BestPracticesSDK.validate` sets `passed` to true iff
every requested standard reported an empty issues list (the score and the
issue severities play no role); the `runAudit` CLI instead sets `passed`
to `overallScore >= 80 AND criticalIssues == 0` where `criticalIssues`
counts only issues whose severity is exactly `error` (severity `critical`
is not counted). -/
theorem aggregator_passed_characterization (req : List Standard) (cR sR pR : ScanOutput) :
    ((sdkValidate req cR sR pR).passed = true ↔
      ∀ s ∈ includedStandards req, (scanOutputFor s cR sR pR).issues = []) ∧
    ((runAuditSummary req cR sR pR).passed = true ↔
      80 ≤ (runAuditSummary req cR sR pR).overallScore ∧
      (runAuditSummary req cR sR pR).criticalIssues = 0) ∧
    (runAuditSummary req cR sR pR).criticalIssues =
      ((includedStandards req).map
        (fun s => countSeverity "error" (scanOutputFor s cR sR pR).issues)).sum := by
  refine ⟨sdkValidate_passed_iff req cR sR pR, ?_, ?_⟩
  · simp [runAuditSummary]
  · by_cases hc : Standard.code ∈ req <;>
      by_cases hs : Standard.security ∈ req <;>
        by_cases hp : Standard.performance ∈ req <;>
          (simp [runAuditSummary, includedStandards, scanOutputFor, hc, hs, hp]; try omega)

/-! ## Claim C2: the overall score -/
/-- C2 counterexample: requesting code and security with per-standard
scores 100 (no functions) and 85 (one secret) yields
`overallScore = 92.5`, not the rounded mean 93: `BestPracticesSDK.validate`
never rounds. -/
theorem sdk_overall_not_rounded_mean :
    ¬ ((sdkValidate [Standard.code, Standard.security] c2CodeScan c2SecScan emptyScan).overallScore =
      ((jsRound ((c2CodeScan.score + c2SecScan.score) / 2) : ℤ) : ℚ)) := by
  rw [sdkValidate_overall_eq]
  rw [show includedStandards [Standard.code, Standard.security] =
    [Standard.code, Standard.security] from by decide]
  simp only [List.map_cons, List.map_nil, List.sum_cons, List.sum_nil, List.length_cons,
    List.length_nil, scanOutputFor, c2CodeScan, c2SecScan]
  norm_num [codeCalculateScore, securityCalculateScore, jsRound]

/-- C2 (amended): for a run over distinct requested standards,
`BestPracticesSDK.validate` returns the exact (unrounded) arithmetic mean
of the per-standard scores, while the `runAudit` CLI returns that mean
rounded to the nearest integer. -/
theorem aggregator_overall_mean (req : List Standard) (cR sR pR : ScanOutput)
    (hnd : req.Nodup) :
    (sdkValidate req cR sR pR).overallScore =
      ((includedStandards req).map (fun s => (scanOutputFor s cR sR pR).score)).sum
        / ((includedStandards req).length : ℚ) ∧
    (runAuditSummary req cR sR pR).overallScore =
      jsRound (((includedStandards req).map (fun s => (scanOutputFor s cR sR pR).score)).sum
        / ((includedStandards req).length : ℚ)) := by
  refine ⟨sdkValidate_overall_eq req cR sR pR, ?_⟩
  have hlen := includedStandards_length req hnd
  by_cases hc : Standard.code ∈ req <;>
    by_cases hs : Standard.security ∈ req <;>
      by_cases hp : Standard.performance ∈ req <;>
        simp [runAuditSummary, includedStandards, scanOutputFor, hc, hs, hp] at hlen ⊢ <;>
          rw [← hlen] <;> congr 1 <;> push_cast <;> ring

/-- C2 witness: a concrete two-standard run hitting both conjuncts of the
amended claim. -/
theorem aggregator_overall_mean_witness :
    ([Standard.code, Standard.security] : List Standard).Nodup ∧
    (sdkValidate [Standard.code, Standard.security] c2CodeScan c2SecScan emptyScan).overallScore =
      ((includedStandards [Standard.code, Standard.security]).map
        (fun s => (scanOutputFor s c2CodeScan c2SecScan emptyScan).score)).sum
        / ((includedStandards [Standard.code, Standard.security]).length : ℚ) :=
  ⟨by decide,
    (aggregator_overall_mean [Standard.code, Standard.security] c2CodeScan c2SecScan emptyScan
      (by decide)).1⟩

/-! ## Claim C3: score bounds -/
/-- C3: every per-standard score computed by the code, security and
performance score formulas lies in [0, 100], and the SDK overall score of
a run whose per-standard scores lie in [0, 100] over at least one
requested standard also lies in [0, 100]. -/
theorem scanner_scores_and_overall_in_range :
    (∀ m : CodeMetrics, 0 ≤ codeCalculateScore m ∧ codeCalculateScore m ≤ 100) ∧
    (∀ s v : Nat, 0 ≤ securityCalculateScore s v ∧ securityCalculateScore s v ≤ 100) ∧
    (∀ bs lim lf ud pi : Nat,
      0 ≤ perfCalculateScore bs lim lf ud pi ∧ perfCalculateScore bs lim lf ud pi ≤ 100) ∧
    (∀ (req : List Standard) (cR sR pR : ScanOutput),
      includedStandards req ≠ [] →
      (∀ s ∈ includedStandards req,
        0 ≤ (scanOutputFor s cR sR pR).score ∧ (scanOutputFor s cR sR pR).score ≤ 100) →
      0 ≤ (sdkValidate req cR sR pR).overallScore ∧
        (sdkValidate req cR sR pR).overallScore ≤ 100) := by
  refine ⟨codeCalculateScore_bounds, securityCalculateScore_bounds, perfCalculateScore_bounds, ?_⟩
  intro req cR sR pR hne hsc
  rw [sdkValidate_overall_eq]
  have hlen : 0 < (includedStandards req).length := List.length_pos.mpr hne
  have hn : (0 : ℚ) < ((includedStandards req).length : ℚ) := by exact_mod_cast hlen
  constructor
  · apply div_nonneg _ hn.le
    apply List.sum_nonneg
    intro x hx
    obtain ⟨s, hs, rfl⟩ := List.mem_map.mp hx
    exact (hsc s hs).1
  · rw [div_le_iff₀ hn]
    have hb : ∀ x ∈ (includedStandards req).map (fun s => (scanOutputFor s cR sR pR).score),
        x ≤ (100 : ℚ) := by
      intro x hx
      obtain ⟨s, hs, rfl⟩ := List.mem_map.mp hx
      exact (hsc s hs).2
    have := List.sum_le_card_nsmul _ _ hb
    rw [List.length_map] at this
    rw [nsmul_eq_mul] at this
    linarith

/-- C3 witness: concrete scores and a concrete one-standard run. -/
theorem scanner_scores_and_overall_in_range_witness :
    (includedStandards [Standard.code] ≠ [] ∧
      (∀ s ∈ includedStandards [Standard.code],
        0 ≤ (scanOutputFor s emptyScan emptyScan emptyScan).score ∧
          (scanOutputFor s emptyScan emptyScan emptyScan).score ≤ 100)) ∧
    (0 ≤ (sdkValidate [Standard.code] emptyScan emptyScan emptyScan).overallScore ∧
      (sdkValidate [Standard.code] emptyScan emptyScan emptyScan).overallScore ≤ 100) :=
  ⟨⟨by decide, by decide⟩,
    scanner_scores_and_overall_in_range.2.2.2 [Standard.code] emptyScan emptyScan emptyScan
      (by decide) (by decide)⟩

/-- C8 counterexample: when the code scanner fails, its issues array holds
one plain string, not a structured Issue record of severity `critical`. -/
theorem scanner_failure_issue_not_critical_record :
    ¬ (∃ i : Issue, (codeValidateRun (Except.error "boom")).issues = [IssueItem.record i] ∧
      i.severity = "critical") := by
  rintro ⟨i, h, -⟩
  simp [codeValidateRun] at h

/-- C8 (amended): a failed scanner does not abort the run — the failed
standard's score is 0 and the failure surfaces as a single plain string
`<Standard> validation failed: <message>` in that standard's issues array
(carrying no severity field), and the overall SDK report is still produced
with that standard scored 0 and `passed = false`. -/
theorem scanner_failure_degrades_score (e : String) (sR pR : ScanOutput) :
    (codeValidateRun (Except.error e)).score = 0 ∧
    (codeValidateRun (Except.error e)).issues =
      [IssueItem.plain ("Code validation failed: " ++ e)] ∧
    (securityValidateRun (Except.error e)).score = 0 ∧
    (securityValidateRun (Except.error e)).issues =
      [IssueItem.plain ("Security validation failed: " ++ e)] ∧
    (sdkValidate [Standard.code, Standard.security, Standard.performance]
        (codeValidateRun (Except.error e)) sR pR).scores.head? =
      some (Standard.code, 0) ∧
    (sdkValidate [Standard.code, Standard.security, Standard.performance]
        (codeValidateRun (Except.error e)) sR pR).passed = false := by
  refine ⟨rfl, rfl, rfl, rfl, ?_, ?_⟩
  · rw [sdkValidate_scores_eq]
    rw [show includedStandards [Standard.code, Standard.security, Standard.performance] =
      [Standard.code, Standard.security, Standard.performance] from by decide]
    rfl
  · cases hb : (sdkValidate [Standard.code, Standard.security, Standard.performance]
        (codeValidateRun (Except.error e)) sR pR).passed
    · rfl
    · exfalso
      have := (sdkValidate_passed_iff [Standard.code, Standard.security, Standard.performance]
        (codeValidateRun (Except.error e)) sR pR).mp hb Standard.code (by decide)
      simp [codeValidateRun, scanOutputFor] at this

/-! ### Duplicate-freeness machinery -/
theorem nodup_findFilesByPatterns (pats : List GlobPat) (extra : String → Bool)
    (files : List String) (hf : files.Nodup)
    (hd : pats.Pairwise (fun g h => ∀ p, ¬(globMatches g p = true ∧ globMatches h p = true))) :
    (findFilesByPatterns pats extra files).Nodup := by
  unfold findFilesByPatterns
  induction pats with
  | nil => simp
  | cons g gs ih =>
    rw [List.flatMap_cons]
    refine List.Nodup.append (hf.filter _) (ih hd.of_cons) ?_
    intro x hx1 hx2
    obtain ⟨q, hq, hxq⟩ := List.mem_flatMap.mp hx2
    have h1 := (List.mem_filter.mp hx1).2
    have h2 := (List.mem_filter.mp hxq).2
    rw [Bool.and_eq_true, Bool.and_eq_true] at h1 h2
    exact (List.pairwise_cons.mp hd).1 q hq x ⟨h1.1.1, h2.1.1⟩

theorem suffixPat_disjoint (s t : String)
    (h1 : ¬ s.data <:+ t.data) (h2 : ¬ t.data <:+ s.data) :
    ∀ p, ¬ (globMatches (GlobPat.suffixPat s) p = true ∧
      globMatches (GlobPat.suffixPat t) p = true) := by
  rintro p ⟨hp, hq⟩
  simp only [globMatches, Bool.and_eq_true, endsWithCh] at hp hq
  have hp1 : s.data.reverse <+: (basenameCh p).reverse :=
    List.isPrefixOf_iff_prefix.mp hp.1
  have hq1 : t.data.reverse <+: (basenameCh p).reverse :=
    List.isPrefixOf_iff_prefix.mp hq.1
  rcases List.prefix_or_prefix_of_prefix hp1 hq1 with hc | hc
  · exact h1 (List.reverse_prefix.mp hc)
  · exact h2 (List.reverse_prefix.mp hc)

theorem pairwise_disjoint_of_suffixIncomparable (exts : List String)
    (h : suffixIncomparable exts) :
    (exts.map GlobPat.suffixPat).Pairwise
      (fun g h => ∀ p, ¬(globMatches g p = true ∧ globMatches h p = true)) :=
  List.Pairwise.map _ (fun a b hab => suffixPat_disjoint a b hab.1 hab.2) h

/-- C7 counterexample: a filesystem holding the single file
`src/webpack.config.js` makes the security scanner's file discovery return
that path twice — it matches both `**/*.js` and `**/*.config.js`. -/
theorem security_discovery_returns_duplicate :
    findFilesToScan ["src/webpack.config.js"] =
      ["src/webpack.config.js", "src/webpack.config.js"] ∧
    ¬ (findFilesToScan ["src/webpack.config.js"]).Nodup := by
  constructor
  · decide
  · decide

/-- C7 (amended): the code and performance scanners' file discovery
returns each matching path at most once (their extension patterns are
pairwise exclusive), but the security scanner's discovery can return the
same path once per pattern it matches. -/
theorem code_and_bundle_discovery_nodup (files : List String) (hf : files.Nodup) :
    (findCodeFiles files).Nodup ∧ (findBundleFiles files).Nodup := by
  constructor
  · exact nodup_findFilesByPatterns _ _ _ hf
      (pairwise_disjoint_of_suffixIncomparable codeFileSuffixes
        (by unfold suffixIncomparable; decide))
  · exact nodup_findFilesByPatterns _ _ _ hf
      (pairwise_disjoint_of_suffixIncomparable bundleFileSuffixes
        (by unfold suffixIncomparable; decide))

/-- C7 witness: a concrete two-file filesystem. -/
theorem code_and_bundle_discovery_nodup_witness :
    (["src/a.js", "src/style.css"] : List String).Nodup ∧
    (findCodeFiles ["src/a.js", "src/style.css"]).Nodup ∧
    (findBundleFiles ["src/a.js", "src/style.css"]).Nodup :=
  ⟨by decide,
    (code_and_bundle_discovery_nodup ["src/a.js", "src/style.css"] (by decide)).1,
    (code_and_bundle_discovery_nodup ["src/a.js", "src/style.css"] (by decide)).2⟩

/-- C5 counterexample: dropping only the `// example` comment does not
yield one hardcoded-secret issue — the allow-list check inspects the whole
line, the literal itself still contains the token `EXAMPLE`, and the line
is suppressed entirely (zero issues). -/
theorem secret_scan_no_comment_still_suppressed :
    ¬ ((scanFileForSecrets defaultSecurityConfig "src/config.js" c5LineNoComment).length = 1) := by
  decide

/-- C5 (amended): the commented line produces no issue; removing the
comment but keeping the `EXAMPLE` literal still produces no issue (the
allow check sees `example` inside the string literal); only removing the
allow token entirely produces issues — and then two of them, one from the
AWS Access Key signature and one from the API Key signature. -/
theorem secret_scan_allowlist_behavior :
    scanFileForSecrets defaultSecurityConfig "src/config.js" c5LineWithComment = [] ∧
    scanFileForSecrets defaultSecurityConfig "src/config.js" c5LineNoComment = [] ∧
    (scanFileForSecrets defaultSecurityConfig "src/config.js" c5LineBare).map
      Issue.secretType = [some "AWS Access Key", some "API Key"] := by
  refine ⟨by decide, by decide, by decide⟩

/-- C10 counterexample: the scanner's `substring(0, 20)` preview keeps a
match of at most 20 characters in full — on the bare AWS-key line the
first issue's message contains the complete matched secret
`AKIA1234567890123456` (a full AWS access key id is exactly 20
characters). -/
theorem secret_message_contains_full_secret :
    firstMatch awsAccessKeyMatcher c5LineBare = some "AKIA1234567890123456".data ∧
    (scanFileForSecrets defaultSecurityConfig "src/config.js" c5LineBare).head? =
      some awsIssueExample ∧
    hasSubstr "AKIA1234567890123456".data awsIssueExample.message.data = true := by
  refine ⟨by decide, by decide, by decide⟩

/-- C10 (amended): every hardcoded-secret issue's message is exactly the
signature description, a colon, the first 20 characters of the leftmost
match of that signature on some line of the file, and `...` — so matches
longer than 20 characters are truncated, but a match of at most 20
characters appears in the message in full. -/
theorem secret_issue_message_truncates (cfg : SecurityConfig) (filePath : String)
    (content : List Char) (i : Issue)
    (hi : i ∈ scanFileForSecrets cfg filePath content) :
    ∃ p ∈ secretPatterns, ∃ ln ∈ splitLines content, ∃ matched : List Char,
      firstMatch p.search ln = some matched ∧
      i.message = p.description ++ ": " ++ String.mk (matched.take 20) ++ "..." ∧
      i.secretType = some p.name := by
  unfold scanFileForSecrets at hi
  obtain ⟨il, hil, hmem⟩ := List.mem_flatMap.mp hi
  have hlnmem : il.2 ∈ splitLines content := by
    have := List.enum_map_snd (splitLines content)
    rw [← this]
    exact List.mem_map_of_mem Prod.snd hil
  by_cases hskip : (isCommentLine il.2 || isTestFile filePath) = true
  · rw [if_pos hskip] at hmem
    cases hmem
  · rw [if_neg hskip] at hmem
    unfold scanLineForSecrets at hmem
    obtain ⟨p, hp, hpm⟩ := List.mem_filterMap.mp hmem
    rcases hfm : firstMatch p.search il.2 with _ | matched
    · rw [hfm] at hpm
      cases hpm
    · rw [hfm] at hpm
      dsimp only at hpm
      by_cases hallow : isAllowedSecret cfg il.2 = true
      · rw [if_pos hallow] at hpm
        cases hpm
      · rw [if_neg hallow] at hpm
        have hieq : mkSecretIssue filePath (il.1 + 1) p matched = i := by
          injection hpm
        refine ⟨p, hp, il.2, hlnmem, matched, hfm, ?_, ?_⟩
        · rw [← hieq]
          rfl
        · rw [← hieq]
          rfl

/-- C10 witness: the amended statement instantiated at the bare AWS-key
line and the issue it yields. -/
theorem secret_issue_message_truncates_witness :
    (awsIssueExample ∈ scanFileForSecrets defaultSecurityConfig "src/config.js" c5LineBare) ∧
    (∃ p ∈ secretPatterns, ∃ ln ∈ splitLines c5LineBare, ∃ matched : List Char,
      firstMatch p.search ln = some matched ∧
      awsIssueExample.message = p.description ++ ": " ++ String.mk (matched.take 20) ++ "..." ∧
      awsIssueExample.secretType = some p.name) :=
  ⟨by decide,
    secret_issue_message_truncates defaultSecurityConfig "src/config.js" c5LineBare
      awsIssueExample (by decide)⟩

/-- C9: evaluating the code at the failing input.  The auto-fix pass fixes
both functions (no issues reported), but the second pass on the rewritten
file still reports one `missing-comment` issue, at line 5 — the comment
for `beta` was spliced at `beta`'s stale pre-fix index, which after the
earlier insertion sits one line above the function (above the closing
brace of `alpha`), where neither comment check finds it. -/
theorem autofix_single_pass_not_convergent :
    (validateFile {} "src/example.js" c9Content true).issues = [] ∧
    ((validateFile {} "src/example.js" c9Content true).fixed.map (fun f => f.issue.type)) =
      ["missing-comment", "missing-comment"] ∧
    (((validateFile {} "src/example.js"
        (joinLines (validateFile {} "src/example.js" c9Content true).lines) false).issues.filter
      (fun i => i.type == "missing-comment")).map Issue.line) = [5] := by
  refine ⟨by decide, by decide, by decide⟩

/-- C6: evaluating the code at the failing input.  A single non-nested
`for` loop yields one `nested-loop` issue at its own line (the scan's
first iteration examines the triggering line itself, whose brace opens the
count and which of course contains `for (`), and a two-level nested loop
yields two issues, at the outer and the inner lines — where the claim
demands zero and exactly one (at the inner line) respectively. -/
theorem nested_loop_detector_self_matches :
    ((checkCodePerformance [("src/single.js", singleLoopContent)]).filter
      (fun i => i.type == "nested-loop")).map Issue.line = [1] ∧
    ((checkCodePerformance [("src/nested.js", nestedLoopContent)]).filter
      (fun i => i.type == "nested-loop")).map Issue.line = [1, 2] := by
  refine ⟨by decide, by decide⟩

end CodeDirectives
